import Mathlib

/-!
# Verification of the media-inbox asynchronous media-processing pipeline

Shallow embedding of the core of the `media-inbox` repository (NestJS +
Bull + S3 + Prisma): the thumbnail engine's dimension arithmetic
(`thumbnail.service.ts`), the derived-key and format-extraction helpers of
the media-processing processor, the job-queue operations of the jobs
service, the worker pipeline (`processMedia`), the upload-completion
validation (`uploads.service.ts`) and asset deletion
(`assets.service.ts`).

JavaScript numeric code is embedded over `ℚ`/`ℤ` (exact rationals in
place of IEEE doubles, with `Math.round x = ⌊x + 1/2⌋`); strings are Lean
`String`s; fallible operations return `Except String`; external
collaborators (the S3 store, the Bull queue's internals, sharp's decoder)
are supplied as explicit oracle parameters or modelled from their
documented behaviour where noted.
-/

namespace MediaInbox

/-- JavaScript `Math.round`: round half toward positive infinity. -/
def jsRound (q : ℚ) : ℤ := ⌊q + 1 / 2⌋

/-- `ThumbnailService.calculateOptimalDimensions` (thumbnail.service.ts):
given the original image dimensions and maximum bounding dimensions,
compute output dimensions preserving the aspect ratio.  Mirrors the
source: on a zero original dimension it returns the bounds unchanged;
otherwise it branches on `aspectRatio > 1` (landscape) and clamps the
overflowing dimension, rounding with `Math.round`. -/
def calculateOptimalDimensions (originalWidth originalHeight maxWidth maxHeight : ℤ) :
    ℤ × ℤ :=
  if originalWidth = 0 ∨ originalHeight = 0 then
    (maxWidth, maxHeight)
  else
    let aspectRatio : ℚ := (originalWidth : ℚ) / (originalHeight : ℚ)
    if 1 < aspectRatio then
      -- Landscape image
      let height := jsRound ((maxWidth : ℚ) / aspectRatio)
      if maxHeight < height then
        (jsRound ((maxHeight : ℚ) * aspectRatio), maxHeight)
      else
        (maxWidth, height)
    else
      -- Portrait or square image
      let width := jsRound ((maxHeight : ℚ) * aspectRatio)
      if maxWidth < width then
        (maxWidth, jsRound ((maxWidth : ℚ) / aspectRatio))
      else
        (width, maxHeight)

/-- Modelled from the spec: the sharp library's `resize` with
`fit: 'cover'` and `withoutEnlargement: true` (the options
`ThumbnailService.generateThumbnail` always passes) is not part of this
repository; per its documented behaviour, when covering would require
upscaling (scale factor ≥ 1) the image is left at its native size and
only cropped to the target, otherwise the output is exactly the target
box. -/
def sharpCoverDims (srcW srcH targetW targetH : ℤ) : ℤ × ℤ :=
  let scale : ℚ := max ((targetW : ℚ) / (srcW : ℚ)) ((targetH : ℚ) / (srcH : ℚ))
  if 1 ≤ scale then
    (min targetW srcW, min targetH srcH)
  else
    (targetW, targetH)

/-- Output pixel dimensions of `ThumbnailService.generateThumbnail`
(thumbnail.service.ts): the source is resized to the requested
width/height with the default `cover` fit and `withoutEnlargement: true`. -/
def generateThumbnailDims (srcW srcH width height : ℤ) : ℤ × ℤ :=
  sharpCoverDims srcW srcH width height

/-- Output pixel dimensions of `ThumbnailService.processImageFormat`
(thumbnail.service.ts): the target box is first computed by
`calculateOptimalDimensions` from the decoded source dimensions and the
caller's maximum bounds, then the thumbnail is generated at that target. -/
def processImageFormatDims (srcW srcH maxWidth maxHeight : ℤ) : ℤ × ℤ :=
  let dims := calculateOptimalDimensions srcW srcH maxWidth maxHeight
  generateThumbnailDims srcW srcH dims.1 dims.2

/-- JavaScript `String.prototype.toLowerCase` on the ASCII strings the
pipeline handles (MIME types and format names). -/
def jsToLower (s : String) : String :=
  String.mk (s.data.map Char.toLower)

/-- JavaScript `key.replace(/\x7b...\x7d/, '')` for the regex stripping a
final file extension, `\.[^/.]+$` (media-processing.processor.ts,
`generateThumbnailKey`): when the string ends in a dot followed by one or
more characters none of which is `/` or `.`, that dot and suffix are
removed; otherwise the string is unchanged. -/
def jsStripExtension (s : String) : String :=
  let rev := s.data.reverse
  let run := rev.takeWhile (fun c => !(c = '/' || c = '.'))
  match rev.drop run.length with
  | '.' :: rest => if run.isEmpty then s else String.mk rest.reverse
  | _ => s

/-- `MediaProcessingProcessor.generateThumbnailKey`
(media-processing.processor.ts): remove the file extension from the
original object key and append the `_thumb` suffix plus the thumbnail
format. -/
def generateThumbnailKey (originalKey format : String) : String :=
  jsStripExtension originalKey ++ "_thumb." ++ format

/-- `MediaProcessingProcessor.extractImageFormat`
(media-processing.processor.ts): look the lowercased MIME type up in the
seven-entry format map, falling back to `jpeg`. -/
def extractImageFormat (mimeType : String) : String :=
  let m := jsToLower mimeType
  if m = "image/jpeg" then "jpeg"
  else if m = "image/jpg" then "jpeg"
  else if m = "image/png" then "png"
  else if m = "image/gif" then "gif"
  else if m = "image/webp" then "webp"
  else if m = "image/tiff" then "tiff"
  else if m = "image/bmp" then "bmp"
  else "jpeg"

/-- The decodable source formats of `ThumbnailService.isSupportedImageFormat`
(thumbnail.service.ts). -/
def supportedImageFormats : List String :=
  ["jpeg", "jpg", "png", "gif", "webp", "tiff", "bmp"]

/-- `ThumbnailService.isSupportedImageFormat` (thumbnail.service.ts):
membership of the lowercased format in the supported list. -/
def isSupportedImageFormat (format : String) : Bool :=
  supportedImageFormats.contains (jsToLower format)

/-- The decode-heavy pieces of work `ThumbnailService.processImageFormat`
can perform on the image buffer, in order: reading the source metadata
(`sharp(buffer).metadata()`) and the resize/re-encode of
`generateThumbnail`. -/
inductive ImgAction
  | decodeMetadata
  | resizeEncode
  deriving DecidableEq, Repr

/-- `ThumbnailService.processImageFormat` (thumbnail.service.ts), observed
through its result and the buffer work it performs.  The decoder is an
oracle: `decode` is what `sharp(buffer).metadata()` would yield for the
given buffer (dimensions on success).  The format validation runs first
and an unsupported format raises `Unsupported image format: <format>`
before any buffer work; otherwise the source is decoded, the target box is
computed by `calculateOptimalDimensions` against the caller's maximum
bounds, and the thumbnail is generated at that box. -/
def processImageFormatRun (decode : Except String (ℤ × ℤ)) (format : String)
    (maxWidth maxHeight : ℤ) : Except String (ℤ × ℤ) × List ImgAction :=
  if !(isSupportedImageFormat format) then
    (Except.error ("Unsupported image format: " ++ format), [])
  else
    match decode with
    | Except.error e => (Except.error e, [ImgAction.decodeMetadata])
    | Except.ok (w, h) =>
      let dims := calculateOptimalDimensions w h maxWidth maxHeight
      (Except.ok (generateThumbnailDims w h dims.1 dims.2),
        [ImgAction.decodeMetadata, ImgAction.resizeEncode])

/-- The states Bull reports for a queue task. -/
inductive TaskState
  | waiting
  | active
  | completed
  | failed
  | delayed
  deriving DecidableEq, Repr

/-- One task of the `media-processing` Bull queue: its id (the idempotency
key), the asset it processes, the attempts Bull has made, and its state. -/
structure QueueTask where
  id : String
  assetId : String
  attemptsMade : Nat
  state : TaskState
  deriving DecidableEq, Repr

/-- The `media-processing` Bull queue, as the set of tasks it holds. -/
structure BullQueue where
  tasks : List QueueTask
  deriving DecidableEq, Repr

/-- Tasks of the queue in a given state (what `getQueueStats` counts per
state via `getWaiting`/`getActive`/...). -/
def countState (q : BullQueue) (s : TaskState) : Nat :=
  (q.tasks.filter (fun t => t.state == s)).length

/-- The deterministic idempotency key of `JobsService.addMediaProcessingJob`:
`media-<assetId>`. -/
def mediaJobId (assetId : String) : String :=
  "media-" ++ assetId

/-- Modelled from the spec: Bull's `Queue.add` with an explicit `jobId`
(the queue library is not part of this repository).  When a task with that
id already exists the call is a no-op returning the existing task;
otherwise a fresh task is inserted. -/
def bullAdd (q : BullQueue) (jobId assetId : String) : QueueTask × BullQueue :=
  match q.tasks.find? (fun t => t.id == jobId) with
  | some t => (t, q)
  | none =>
    let t : QueueTask := ⟨jobId, assetId, 0, TaskState.waiting⟩
    (t, ⟨q.tasks ++ [t]⟩)

/-- `JobsService.addMediaProcessingJob` (jobs.service.ts): enqueue a
`process-media` task under the idempotency key `media-<assetId>`. -/
def addMediaProcessingJob (q : BullQueue) (assetId : String) : QueueTask × BullQueue :=
  bullAdd q (mediaJobId assetId) assetId

/-- `JobsService.retryFailedJob` (jobs.service.ts): look the task up; a
missing task raises `Job not found`; a task whose state is not `failed`
raises `Job is not in failed state`; a failed task is retried —
`job.retry()` (modelled from the spec, Bull is not part of this
repository) moves it back to `waiting`, leaving `attemptsMade` as it was. -/
def retryFailedJob (q : BullQueue) (jobId : String) : Except String BullQueue :=
  match q.tasks.find? (fun t => t.id == jobId) with
  | none => Except.error ("Job not found")
  | some t =>
    if t.state = TaskState.failed then
      Except.ok ⟨q.tasks.map (fun u =>
        if u.id == jobId then { u with state := TaskState.waiting } else u)⟩
    else
      Except.error ("Job is not in failed state")

/-- `Asset.status` (prisma schema): the asset lifecycle states. -/
inductive AssetStatus
  | PENDING
  | PROCESSING
  | READY
  | FAILED
  deriving DecidableEq, Repr

/-- The states `processMedia` writes to the persisted `Job` audit row. -/
inductive JobRecState
  | ACTIVE
  | COMPLETED
  | FAILED
  deriving DecidableEq, Repr

/-- The persisted `Job` audit row as `processMedia` mutates it. -/
structure JobRecord where
  state : JobRecState
  lastError : Option String
  deriving DecidableEq, Repr

/-- The persisted state `processMedia` reads and writes for one asset:
the asset's status and thumbnail key, and its latest `Job` audit row. -/
structure WorkerState where
  assetStatus : AssetStatus
  thumbKey : Option String
  jobRecord : Option JobRecord
  deriving DecidableEq, Repr

/-- The environment of one `processMedia` execution: whether the worker is
draining for shutdown, whether the best-effort `Job` row creation
succeeds, the task's object key, and the outcomes of the fallible pipeline
steps (S3 download, sharp format detection, thumbnail generation, S3
upload), each an oracle for the external collaborator it stands for. -/
structure WorkerEnv where
  shuttingDown : Bool
  jobCreateOk : Bool
  objectKey : String
  download : Except String Nat
  detectFormat : Except String String
  thumbnail : Except String Unit
  upload : Except String Unit

/-- The fallible step sequence inside `processMedia`'s main `try` block
(media-processing.processor.ts): download the original, detect its format,
generate the thumbnail, upload it; the first failure aborts the sequence.
Returns the detected format on success. -/
def pipelineSteps (env : WorkerEnv) : Except String String := do
  let _ ← env.download
  let fmt ← env.detectFormat
  let _ ← env.thumbnail
  let _ ← env.upload
  pure fmt

/-- `MediaProcessingProcessor.processMedia` (media-processing.processor.ts):
refuse the task when draining for shutdown; create the `Job` audit row in
`ACTIVE` state (best-effort); set the asset `PROCESSING`; run the pipeline
steps; on success set the asset `READY` with the deterministic thumbnail
key and mark the `Job` row `COMPLETED`; on any error set the asset
`FAILED`, mark the `Job` row `FAILED` with `lastError`, and re-throw the
error.  Status and audit-row writes are persisted-state updates and are
embedded as infallible state transitions. -/
def processMedia (env : WorkerEnv) (st : WorkerState) :
    Except String Unit × WorkerState :=
  if env.shuttingDown then
    (Except.error ("Application is shutting down"), st)
  else
    let created := env.jobCreateOk
    let st1 := if created then
        { st with jobRecord := some ⟨JobRecState.ACTIVE, none⟩ }
      else st
    let st2 := { st1 with assetStatus := AssetStatus.PROCESSING }
    match pipelineSteps env with
    | Except.ok fmt =>
      let st3 := { st2 with
        assetStatus := AssetStatus.READY,
        thumbKey := some (generateThumbnailKey env.objectKey fmt) }
      (Except.ok (),
        if created then { st3 with jobRecord := some ⟨JobRecState.COMPLETED, none⟩ }
        else st3)
    | Except.error e =>
      let st3 := { st2 with assetStatus := AssetStatus.FAILED }
      (Except.error e,
        if created then { st3 with jobRecord := some ⟨JobRecState.FAILED, some e⟩ }
        else st3)

/-- The body of an upload-complete request (upload-complete.dto.ts). -/
structure UploadCompleteDto where
  objectKey : String
  filename : String
  contentType : String
  fileSize : ℤ
  sha256Hash : Option String

/-- The allowed MIME types of `UploadsService.validateFileType`
(uploads.service.ts). -/
def allowedFileTypes : List String :=
  ["image/jpeg", "image/png", "image/gif", "image/webp",
   "application/pdf", "text/plain", "application/msword",
   "application/vnd.openxmlformats-officedocument.wordprocessingml.document"]

/-- `UploadsService.validateFileType` (uploads.service.ts): a content type
outside the allowed list raises a `BadRequestException`. -/
def validateFileType (contentType : String) : Except String Unit :=
  if allowedFileTypes.contains contentType then Except.ok ()
  else Except.error ("File type " ++ contentType ++ " is not allowed")

/-- One `Asset` row (prisma schema), with the fields the verified
operations touch. -/
structure AssetRow where
  id : String
  ownerId : String
  objectKey : String
  mime : String
  size : ℤ
  status : AssetStatus
  thumbKey : Option String
  deriving DecidableEq, Repr

/-- The persisted state `completeUpload` reads and writes: the asset table
and the processing queue. -/
structure UploadsState where
  assets : List AssetRow
  queue : BullQueue
  deriving DecidableEq, Repr

/-- `UploadsService.completeUpload` (uploads.service.ts): validate the
content type, then the file size (positive and at most 104857600 bytes);
only then create the `PENDING` asset row and enqueue the media-processing
task.  `newAssetId` stands for the database-generated asset id. -/
def completeUpload (st : UploadsState) (dto : UploadCompleteDto)
    (userId newAssetId : String) : Except String String × UploadsState :=
  match validateFileType dto.contentType with
  | Except.error e => (Except.error e, st)
  | Except.ok _ =>
    if dto.fileSize ≤ 0 ∨ 104857600 < dto.fileSize then
      (Except.error ("Invalid file size"), st)
    else
      let asset : AssetRow :=
        ⟨newAssetId, userId, dto.objectKey, dto.contentType, dto.fileSize,
          AssetStatus.PENDING, none⟩
      (Except.ok newAssetId,
        ⟨st.assets ++ [asset], (addMediaProcessingJob st.queue newAssetId).2⟩)

/-- The outcomes of the two best-effort S3 blob deletions inside
`AssetsService.deleteAsset`: the original object and, when a thumbnail
key is present, the thumbnail object. -/
structure S3DeleteEnv where
  deleteOriginal : Except String Unit
  deleteThumb : Except String Unit

/-- `AssetsService.deleteAsset` (assets.service.ts): look the asset up
(`Asset not found` when missing), check ownership (`Access denied to this
asset` otherwise); then try to delete the S3 blobs — any failure there is
caught and only recorded as a logged warning (the returned flag) — and
finally delete the asset row.  Returns the remaining asset table and
whether a blob-deletion warning was logged. -/
def deleteAsset (env : S3DeleteEnv) (assets : List AssetRow)
    (assetId userId : String) : Except String (List AssetRow × Bool) :=
  match assets.find? (fun a => a.id == assetId) with
  | none => Except.error ("Asset not found")
  | some asset =>
    if asset.ownerId ≠ userId then
      Except.error ("Access denied to this asset")
    else
      let warned :=
        match env.deleteOriginal with
        | Except.error _ => true
        | Except.ok _ =>
          match asset.thumbKey with
          | some _ =>
            match env.deleteThumb with
            | Except.error _ => true
            | Except.ok _ => false
          | none => false
      Except.ok (assets.filter (fun a => !(a.id == assetId)), warned)

/-! ## Helper lemmas -/

/-- Bounding `jsRound` above is bounding the argument below the next
integer. -/
theorem jsRound_le_iff {q : ℚ} {z : ℤ} : jsRound q ≤ z ↔ q + 1 / 2 < (z : ℚ) + 1 := by
  unfold jsRound
  rw [Int.floor_le_iff]

/-- Bounding `jsRound` below is bounding the shifted argument below. -/
theorem le_jsRound_iff {q : ℚ} {z : ℤ} : z ≤ jsRound q ↔ (z : ℚ) ≤ q + 1 / 2 := by
  unfold jsRound
  rw [Int.le_floor]

/-- The cover resize with `withoutEnlargement` never exceeds the source
dimensions. -/
theorem sharpCoverDims_le (sw sh tw th : ℤ) (hw : 0 < sw) (hh : 0 < sh) :
    (sharpCoverDims sw sh tw th).1 ≤ sw ∧ (sharpCoverDims sw sh tw th).2 ≤ sh := by
  unfold sharpCoverDims
  by_cases hs : (1 : ℚ) ≤ max ((tw : ℚ) / (sw : ℚ)) ((th : ℚ) / (sh : ℚ))
  · simp only [hs, if_pos]
    exact ⟨min_le_right _ _, min_le_right _ _⟩
  · simp only [hs, if_neg, if_false]
    push_neg at hs
    rw [max_lt_iff] at hs
    obtain ⟨h1, h2⟩ := hs
    rw [div_lt_one (by exact_mod_cast hw)] at h1
    rw [div_lt_one (by exact_mod_cast hh)] at h2
    constructor
    · exact_mod_cast h1.le
    · exact_mod_cast h2.le

/-- `takeWhile` over a list that satisfies the predicate up to a failing
element takes exactly that much. -/
theorem takeWhile_middle {p : Char → Bool} (l1 l2 : List Char) (x : Char)
    (h1 : ∀ c ∈ l1, p c = true) (hx : p x = false) :
    (l1 ++ x :: l2).takeWhile p = l1 := by
  induction l1 with
  | nil => simp [List.takeWhile_cons, hx]
  | cons a t ih =>
    have ha : p a = true := h1 a (by simp)
    simp only [List.cons_append, List.takeWhile_cons, ha, if_true]
    rw [ih (fun c hc => h1 c (by simp [hc]))]

/-- Stripping the extension from a key of the form `base.ext`, where the
extension is nonempty and free of dots and slashes, yields `base`. -/
theorem jsStripExtension_append (base ext : String) (hne : ext ≠ "")
    (hext : ∀ c ∈ ext.data, c ≠ '.' ∧ c ≠ '/') :
    jsStripExtension (base ++ "." ++ ext) = base := by
  obtain ⟨b⟩ := base
  obtain ⟨e⟩ := ext
  have hedata : e ≠ [] := by
    intro h
    exact hne (by simp [h])
  have hdata : (String.mk b ++ "." ++ String.mk e).data = b ++ '.' :: e := by
    simp [String.data_append]
  have hrev : (b ++ '.' :: e).reverse = e.reverse ++ '.' :: b.reverse := by
    simp
  have hall : ∀ c ∈ e.reverse, (!(c = '/' || c = '.')) = true := by
    intro c hc
    have := hext c (by simpa using hc)
    simp [this.1, this.2]
  have hdot : (!(('.' : Char) = '/' || ('.' : Char) = '.')) = false := by decide
  have htake : ((b ++ '.' :: e).reverse.takeWhile (fun c => !(c = '/' || c = '.'))) =
      e.reverse := by
    rw [hrev]
    exact takeWhile_middle _ _ _ hall hdot
  have hdrop : (b ++ '.' :: e).reverse.drop e.reverse.length = '.' :: b.reverse := by
    rw [hrev]
    exact List.drop_left _ _
  unfold jsStripExtension
  simp only [hdata, htake, hdrop]
  have : e.reverse.isEmpty = false := by
    cases h : e.reverse with
    | nil => exact absurd (by simpa using h) hedata
    | cons a t => rfl
  simp [this]

/-- `find?` commutes with a map that does not change the predicate's
verdict. -/
theorem find?_map_congr {α : Type} {p : α → Bool} {g : α → α}
    (hg : ∀ a, p (g a) = p a) (l : List α) :
    (l.map g).find? p = (l.find? p).map g := by
  induction l with
  | nil => rfl
  | cons a t ih =>
    by_cases h : p a = true
    · rw [List.map_cons, List.find?_cons_of_pos _ (by rw [hg]; exact h),
        List.find?_cons_of_pos _ h]
      rfl
    · rw [List.map_cons, List.find?_cons_of_neg _ (by rw [hg]; simpa using h),
        List.find?_cons_of_neg _ (by simpa using h), ih]

/-! ## Claim theorems -/

/-- C3: for every source image of positive intrinsic dimensions and every
requested target dimensions (`generateThumbnail`) or maximum bounding
dimensions (`processImageFormat`), the thumbnail pipeline never produces
output dimensions exceeding the source width or height: enlargement is
disallowed. -/
theorem thumbnail_never_enlarges (srcW srcH targetW targetH maxW maxH : ℤ)
    (hw : 0 < srcW) (hh : 0 < srcH) :
    (generateThumbnailDims srcW srcH targetW targetH).1 ≤ srcW ∧
    (generateThumbnailDims srcW srcH targetW targetH).2 ≤ srcH ∧
    (processImageFormatDims srcW srcH maxW maxH).1 ≤ srcW ∧
    (processImageFormatDims srcW srcH maxW maxH).2 ≤ srcH := by
  refine ⟨(sharpCoverDims_le _ _ _ _ hw hh).1, (sharpCoverDims_le _ _ _ _ hw hh).2, ?_, ?_⟩
  · exact (sharpCoverDims_le srcW srcH
      (calculateOptimalDimensions srcW srcH maxW maxH).1
      (calculateOptimalDimensions srcW srcH maxW maxH).2 hw hh).1
  · exact (sharpCoverDims_le srcW srcH
      (calculateOptimalDimensions srcW srcH maxW maxH).1
      (calculateOptimalDimensions srcW srcH maxW maxH).2 hw hh).2

/-- Witness for C3: a 50×50 source with a 300×300 bound stays within
50×50 (and the pipeline output is exactly 50×50). -/
theorem thumbnail_never_enlarges_witness :
    ((processImageFormatDims 50 50 300 300).1 ≤ 50 ∧
      (processImageFormatDims 50 50 300 300).2 ≤ 50) ∧
    processImageFormatDims 50 50 300 300 = (50, 50) := by
  have h := thumbnail_never_enlarges 50 50 300 300 300 300 (by norm_num) (by norm_num)
  refine ⟨⟨h.2.2.1, h.2.2.2⟩, ?_⟩
  norm_num [processImageFormatDims, generateThumbnailDims, sharpCoverDims,
    calculateOptimalDimensions, jsRound]

/-- C4: in the format-processing mode, `calculateOptimalDimensions`
computes output dimensions within the bounds, with one dimension meeting
its bound and the other derived from it by the source aspect ratio modulo
`Math.round`; with equal bounds the source's longer dimension is the one
meeting its bound. -/
theorem calculateOptimalDimensions_aspect (sw sh mw mh : ℤ)
    (hsw : 0 < sw) (hsh : 0 < sh) (hmw : 0 < mw) (hmh : 0 < mh) :
    (calculateOptimalDimensions sw sh mw mh).1 ≤ mw ∧
    (calculateOptimalDimensions sw sh mw mh).2 ≤ mh ∧
    ((calculateOptimalDimensions sw sh mw mh).1 = mw ∨
      (calculateOptimalDimensions sw sh mw mh).2 = mh) ∧
    ((calculateOptimalDimensions sw sh mw mh).2 =
        jsRound (((calculateOptimalDimensions sw sh mw mh).1 : ℚ) /
          ((sw : ℚ) / (sh : ℚ))) ∨
      (calculateOptimalDimensions sw sh mw mh).1 =
        jsRound (((calculateOptimalDimensions sw sh mw mh).2 : ℚ) *
          ((sw : ℚ) / (sh : ℚ)))) ∧
    (mw = mh →
      (sh < sw → (calculateOptimalDimensions sw sh mw mh).1 = mw) ∧
      (sw ≤ sh → (calculateOptimalDimensions sw sh mw mh).2 = mh)) := by
  have hsw' : (0 : ℚ) < (sw : ℚ) := by exact_mod_cast hsw
  have hsh' : (0 : ℚ) < (sh : ℚ) := by exact_mod_cast hsh
  have hmw' : (0 : ℚ) < (mw : ℚ) := by exact_mod_cast hmw
  have hmh' : (0 : ℚ) < (mh : ℚ) := by exact_mod_cast hmh
  set ar : ℚ := (sw : ℚ) / (sh : ℚ) with har
  have har0 : 0 < ar := div_pos hsw' hsh'
  have hne : ¬(sw = 0 ∨ sh = 0) := by
    push_neg
    exact ⟨hsw.ne', hsh.ne'⟩
  have hlt : (1 : ℚ) < ar ↔ sh < sw := by
    rw [har, lt_div_iff₀ hsh', one_mul]
    exact ⟨fun h => by exact_mod_cast h, fun h => by exact_mod_cast h⟩
  unfold calculateOptimalDimensions
  rw [if_neg hne]
  by_cases harr : (1 : ℚ) < ar
  · rw [if_pos harr]
    by_cases hclamp : mh < jsRound ((mw : ℚ) / ar)
    · rw [if_pos hclamp]
      have hkey : jsRound ((mh : ℚ) * ar) ≤ mw := by
        rw [jsRound_le_iff]
        have h1 : ((mh : ℚ) + 1 / 2) ≤ (mw : ℚ) / ar := by
          have := (le_jsRound_iff (q := (mw : ℚ) / ar) (z := mh + 1)).mp (by omega)
          push_cast at this ⊢
          linarith
        have h2 : ((mh : ℚ) + 1 / 2) * ar ≤ (mw : ℚ) := by
          calc ((mh : ℚ) + 1 / 2) * ar ≤ ((mw : ℚ) / ar) * ar := by
                exact mul_le_mul_of_nonneg_right h1 har0.le
          _ = (mw : ℚ) := div_mul_cancel₀ _ har0.ne'
        nlinarith
      refine ⟨hkey, le_refl _, Or.inr rfl, Or.inr rfl, ?_⟩
      intro hsq
      constructor
      · intro _
        exfalso
        have : jsRound ((mw : ℚ) / ar) ≤ mh := by
          rw [jsRound_le_iff]
          have : (mw : ℚ) / ar < mw := by
            rw [div_lt_iff₀ har0]
            nlinarith
          have hmm : (mw : ℚ) = (mh : ℚ) := by exact_mod_cast hsq
          linarith
        omega
      · intro hle
        exfalso
        rw [hlt] at harr
        omega
    · rw [if_neg hclamp]
      push_neg at hclamp
      refine ⟨le_refl _, hclamp, Or.inl rfl, Or.inl rfl, ?_⟩
      intro _
      exact ⟨fun _ => rfl, fun hle => by rw [hlt] at harr; omega⟩
  · rw [if_neg harr]
    push_neg at harr
    by_cases hclamp : mw < jsRound ((mh : ℚ) * ar)
    · rw [if_pos hclamp]
      have hkey : jsRound ((mw : ℚ) / ar) ≤ mh := by
        rw [jsRound_le_iff]
        have h1 : ((mw : ℚ) + 1 / 2) ≤ (mh : ℚ) * ar := by
          have := (le_jsRound_iff (q := (mh : ℚ) * ar) (z := mw + 1)).mp (by omega)
          push_cast at this ⊢
          linarith
        have h2 : ((mw : ℚ) + 1 / 2) / ar ≤ (mh : ℚ) := by
          rw [div_le_iff₀ har0]
          exact h1
        have h3 : (1 : ℚ) / 2 ≤ (1 / 2) / ar := by
          rw [le_div_iff₀ har0]
          nlinarith
        have h4 : ((mw : ℚ) + 1 / 2) / ar = (mw : ℚ) / ar + (1 / 2) / ar :=
          add_div _ _ _
        linarith
      refine ⟨le_refl _, hkey, Or.inl rfl, Or.inl rfl, ?_⟩
      intro hsq
      constructor
      · intro hlt'
        exfalso
        rw [← hlt] at hlt'
        exact absurd hlt' (not_lt.mpr harr)
      · intro _
        exfalso
        have : jsRound ((mh : ℚ) * ar) ≤ mw := by
          rw [jsRound_le_iff]
          have hmm : (mw : ℚ) = (mh : ℚ) := by exact_mod_cast hsq
          nlinarith [mul_le_of_le_one_right hmh'.le harr]
        omega
    · rw [if_neg hclamp]
      push_neg at hclamp
      refine ⟨hclamp, le_refl _, Or.inr rfl, Or.inr rfl, ?_⟩
      intro hsq
      refine ⟨fun hlt' => ?_, fun _ => rfl⟩
      exfalso
      rw [← hlt] at hlt'
      exact absurd hlt' (not_lt.mpr harr)

/-- Witness for C4: a 400×200 source with 300×300 bounds yields exactly
300×150, preserving the 2:1 ratio, and the width meets its bound. -/
theorem calculateOptimalDimensions_aspect_witness :
    calculateOptimalDimensions 400 200 300 300 = (300, 150) ∧
    ((calculateOptimalDimensions 400 200 300 300).1 = 300 ∨
      (calculateOptimalDimensions 400 200 300 300).2 = 300) ∧
    processImageFormatDims 400 200 300 300 = (300, 150) := by
  have h := calculateOptimalDimensions_aspect 400 200 300 300
    (by norm_num) (by norm_num) (by norm_num) (by norm_num)
  refine ⟨?_, h.2.2.1, ?_⟩
  · norm_num [calculateOptimalDimensions, jsRound]
  · norm_num [processImageFormatDims, generateThumbnailDims, sharpCoverDims,
      calculateOptimalDimensions, jsRound]

/-- C5: the derived thumbnail key is computed by stripping the final file
extension of the original key and appending the fixed `_thumb` suffix
plus the derived format: for any base key, any nonempty dot- and
slash-free extension and any format, the result is
`base_thumb.<format>`; being a function of the key and format alone, the
same input always yields the same output. -/
theorem generateThumbnailKey_strips_and_appends (base ext format : String)
    (hne : ext ≠ "") (hext : ∀ c ∈ ext.data, c ≠ '.' ∧ c ≠ '/') :
    generateThumbnailKey (base ++ "." ++ ext) format =
      base ++ "_thumb." ++ format := by
  unfold generateThumbnailKey
  rw [jsStripExtension_append base ext hne hext]

/-- Witness for C5: deriving from `uploads/2025/a.png` with format `jpeg`
yields `uploads/2025/a_thumb.jpeg` (the repository spells out the full
format name as the extension). -/
theorem generateThumbnailKey_strips_and_appends_witness :
    generateThumbnailKey "uploads/2025/a.png" "jpeg" = "uploads/2025/a_thumb.jpeg" := by
  have h := generateThumbnailKey_strips_and_appends "uploads/2025/a" "png" "jpeg"
    (by decide) (by decide)
  simpa using h

/-- C6: a format outside the supported list (matched case-insensitively)
makes `processImageFormat` fail immediately with the named error
referencing the format string, and no decode work (metadata read, resize
or re-encode) is performed on the buffer. -/
theorem processImageFormat_fails_fast (decode : Except String (ℤ × ℤ))
    (format : String) (maxW maxH : ℤ)
    (hbad : jsToLower format ∉ supportedImageFormats) :
    (processImageFormatRun decode format maxW maxH).1 =
      Except.error ("Unsupported image format: " ++ format) ∧
    (processImageFormatRun decode format maxW maxH).2 = [] := by
  have hb : isSupportedImageFormat format = false := by
    unfold isSupportedImageFormat
    simpa using hbad
  unfold processImageFormatRun
  rw [hb]
  exact ⟨rfl, rfl⟩

/-- Witness for C6: `processImageFormat(buffer, "unsupported")` errors at
once with `Unsupported image format: unsupported` and touches no buffer,
even one that would decode fine. -/
theorem processImageFormat_fails_fast_witness :
    (processImageFormatRun (Except.ok (800, 600)) "unsupported" 300 300).1 =
      Except.error ("Unsupported image format: unsupported") ∧
    (processImageFormatRun (Except.ok (800, 600)) "unsupported" 300 300).2 = [] :=
  processImageFormat_fails_fast (Except.ok (800, 600)) "unsupported" 300 300 (by decide)

/-- C7: retry succeeds only from FAILED — the task is moved back to
WAITING with its `attemptsMade` history intact and every other task left
in place; from any other state the call fails with the invalid-state
error and returns no changed queue. -/
theorem retryFailedJob_only_from_failed (q : BullQueue) (jobId : String)
    (t : QueueTask) (hfind : q.tasks.find? (fun u => u.id == jobId) = some t) :
    (t.state = TaskState.failed → ∃ q',
      retryFailedJob q jobId = Except.ok q' ∧
      q'.tasks.find? (fun u => u.id == jobId) =
        some { t with state := TaskState.waiting } ∧
      q'.tasks.length = q.tasks.length ∧
      ∀ u ∈ q.tasks, ¬(u.id = jobId) → u ∈ q'.tasks) ∧
    (t.state ≠ TaskState.failed →
      retryFailedJob q jobId = Except.error ("Job is not in failed state")) := by
  have hpred : (t.id == jobId) = true := by
    have := List.find?_some hfind
    simpa using this
  unfold retryFailedJob
  rw [hfind]
  dsimp only
  constructor
  · intro hfail
    rw [if_pos hfail]
    have hg : ∀ a : QueueTask,
        ((if a.id == jobId then { a with state := TaskState.waiting } else a).id ==
          jobId) = (a.id == jobId) := by
      intro a
      by_cases h : (a.id == jobId) = true
      · rw [if_pos h]
      · rw [if_neg h]
    refine ⟨_, rfl, ?_, List.length_map _ _, ?_⟩
    · rw [show (⟨q.tasks.map (fun u =>
            if u.id == jobId then { u with state := TaskState.waiting } else u)⟩ :
          BullQueue).tasks = q.tasks.map (fun u =>
            if u.id == jobId then { u with state := TaskState.waiting } else u) from rfl]
      rw [find?_map_congr hg q.tasks, hfind]
      show some (if t.id == jobId then { t with state := TaskState.waiting } else t) = _
      rw [if_pos hpred]
    · intro u hu hne
      have : (if u.id == jobId then { u with state := TaskState.waiting } else u) = u := by
        rw [if_neg (by simpa using hne)]
      exact this ▸ List.mem_map_of_mem _ hu
  · intro hnf
    rw [if_neg hnf]

/-- Witness for C7: retrying a waiting task fails with the invalid-state
error; retrying a failed task (two attempts already made) yields a queue
whose task is waiting with `attemptsMade` still 2. -/
theorem retryFailedJob_only_from_failed_witness :
    retryFailedJob ⟨[⟨"media-a2", "a2", 0, TaskState.waiting⟩]⟩ "media-a2" =
      Except.error ("Job is not in failed state") ∧
    ∃ q', retryFailedJob ⟨[⟨"media-a1", "a1", 2, TaskState.failed⟩]⟩ "media-a1" =
        Except.ok q' ∧
      q'.tasks.find? (fun u => u.id == "media-a1") =
        some ⟨"media-a1", "a1", 2, TaskState.waiting⟩ ∧
      q'.tasks.length = 1 := by
  constructor
  · exact (retryFailedJob_only_from_failed ⟨[⟨"media-a2", "a2", 0, TaskState.waiting⟩]⟩
      "media-a2" ⟨"media-a2", "a2", 0, TaskState.waiting⟩ (by decide)).2 (by decide)
  · obtain ⟨q', h1, h2, h3, _⟩ :=
      (retryFailedJob_only_from_failed ⟨[⟨"media-a1", "a1", 2, TaskState.failed⟩]⟩
        "media-a1" ⟨"media-a1", "a1", 2, TaskState.failed⟩ (by decide)).1 rfl
    exact ⟨q', h1, h2, h3⟩

/-- C2: enqueuing a media-processing task while a task with the same
idempotency key `media-<assetId>` is already WAITING or ACTIVE is a no-op
returning the existing task: the queue is unchanged, exactly one queued
task exists for that asset, and the waiting+active count does not
increase. -/
theorem addMediaProcessingJob_idempotent (q : BullQueue) (assetId : String)
    (hwf : (q.tasks.filter (fun t => t.id == mediaJobId assetId)).length ≤ 1)
    (hdup : ∃ t ∈ q.tasks, t.id = mediaJobId assetId ∧
      (t.state = TaskState.waiting ∨ t.state = TaskState.active)) :
    (addMediaProcessingJob q assetId).2 = q ∧
    (addMediaProcessingJob q assetId).1 ∈ q.tasks ∧
    (addMediaProcessingJob q assetId).1.id = mediaJobId assetId ∧
    ((addMediaProcessingJob q assetId).2.tasks.filter
        (fun t => t.id == mediaJobId assetId)).length = 1 ∧
    countState (addMediaProcessingJob q assetId).2 TaskState.waiting +
        countState (addMediaProcessingJob q assetId).2 TaskState.active =
      countState q TaskState.waiting + countState q TaskState.active := by
  obtain ⟨t, ht, hid, _⟩ := hdup
  have hsome : (q.tasks.find? (fun u => u.id == mediaJobId assetId)).isSome := by
    rw [List.find?_isSome]
    exact ⟨t, ht, by simp [hid]⟩
  obtain ⟨u, hu⟩ := Option.isSome_iff_exists.mp hsome
  have humem : u ∈ q.tasks := List.mem_of_find?_eq_some hu
  have huid : u.id = mediaJobId assetId := by
    have := List.find?_some hu
    simpa using this
  have hlen : ((q.tasks.filter (fun v => v.id == mediaJobId assetId)).length = 1) := by
    have hmem : t ∈ q.tasks.filter (fun v => v.id == mediaJobId assetId) := by
      rw [List.mem_filter]
      exact ⟨ht, by simp [hid]⟩
    have h0 : 0 < (q.tasks.filter (fun v => v.id == mediaJobId assetId)).length :=
      List.length_pos.mpr (List.ne_nil_of_mem hmem)
    omega
  unfold addMediaProcessingJob bullAdd
  rw [hu]
  exact ⟨rfl, humem, huid, hlen, rfl⟩

/-- Witness for C2: with one waiting `media-a1` task in the queue, a
second enqueue for asset `a1` leaves the queue unchanged. -/
theorem addMediaProcessingJob_idempotent_witness :
    (addMediaProcessingJob ⟨[⟨"media-a1", "a1", 0, TaskState.waiting⟩]⟩ "a1").2 =
      ⟨[⟨"media-a1", "a1", 0, TaskState.waiting⟩]⟩ ∧
    (addMediaProcessingJob ⟨[⟨"media-a1", "a1", 0, TaskState.waiting⟩]⟩ "a1").1 ∈
      [(⟨"media-a1", "a1", 0, TaskState.waiting⟩ : QueueTask)] ∧
    ((addMediaProcessingJob ⟨[⟨"media-a1", "a1", 0, TaskState.waiting⟩]⟩ "a1").2.tasks.filter
        (fun t => t.id == mediaJobId "a1")).length = 1 := by
  have h := addMediaProcessingJob_idempotent ⟨[⟨"media-a1", "a1", 0, TaskState.waiting⟩]⟩
    "a1" (by decide) ⟨⟨"media-a1", "a1", 0, TaskState.waiting⟩, by
      simp [mediaJobId]⟩
  exact ⟨h.1, h.2.1, h.2.2.2.1⟩

/-- C1: a worker execution that begins processing (not refused by the
shutdown guard) terminates with the asset READY on success and FAILED on
any error — never left at PROCESSING — and on error the persisted Job
record (when its best-effort creation succeeded) is FAILED with
`lastError` populated, the original pipeline error being re-thrown rather
than swallowed. -/
theorem processMedia_terminal_state (env : WorkerEnv) (st : WorkerState)
    (hrun : env.shuttingDown = false) :
    ((processMedia env st).2.assetStatus = AssetStatus.READY ∨
      (processMedia env st).2.assetStatus = AssetStatus.FAILED) ∧
    (processMedia env st).2.assetStatus ≠ AssetStatus.PROCESSING ∧
    ((processMedia env st).1 = Except.ok () →
      (processMedia env st).2.assetStatus = AssetStatus.READY) ∧
    (∀ e, (processMedia env st).1 = Except.error e →
      (processMedia env st).2.assetStatus = AssetStatus.FAILED ∧
      (env.jobCreateOk = true →
        (processMedia env st).2.jobRecord = some ⟨JobRecState.FAILED, some e⟩)) ∧
    (∀ e, pipelineSteps env = Except.error e →
      (processMedia env st).1 = Except.error e) := by
  unfold processMedia
  rw [hrun]
  cases hp : pipelineSteps env with
  | ok fmt => cases hc : env.jobCreateOk <;> simp [hc]
  | error e => cases hc : env.jobCreateOk <;> simp [hc]

/-- Witness for C1: a concrete execution whose S3 download fails ends with
the asset FAILED, the Job record FAILED carrying the error message, and
the same error re-thrown to the queue. -/
theorem processMedia_terminal_state_witness :
    (processMedia
        ⟨false, true, "u/1.jpg", Except.error ("download failed"), Except.ok "jpeg",
          Except.ok (), Except.ok ()⟩
        ⟨AssetStatus.PENDING, none, none⟩).2.assetStatus = AssetStatus.FAILED ∧
    (processMedia
        ⟨false, true, "u/1.jpg", Except.error ("download failed"), Except.ok "jpeg",
          Except.ok (), Except.ok ()⟩
        ⟨AssetStatus.PENDING, none, none⟩).2.jobRecord =
      some ⟨JobRecState.FAILED, some ("download failed")⟩ ∧
    (processMedia
        ⟨false, true, "u/1.jpg", Except.error ("download failed"), Except.ok "jpeg",
          Except.ok (), Except.ok ()⟩
        ⟨AssetStatus.PENDING, none, none⟩).1 = Except.error ("download failed") := by
  have h := processMedia_terminal_state
    ⟨false, true, "u/1.jpg", Except.error ("download failed"), Except.ok "jpeg",
      Except.ok (), Except.ok ()⟩
    ⟨AssetStatus.PENDING, none, none⟩ rfl
  have hrun : (processMedia
      ⟨false, true, "u/1.jpg", Except.error ("download failed"), Except.ok "jpeg",
        Except.ok (), Except.ok ()⟩
      ⟨AssetStatus.PENDING, none, none⟩).1 = Except.error ("download failed") :=
    h.2.2.2.2 "download failed" rfl
  have hf := h.2.2.2.1 "download failed" hrun
  exact ⟨hf.1, hf.2 rfl, hrun⟩

/-- C8: an upload-complete request whose content type is not allowed, or
whose file size is nonpositive or above 104857600 bytes, raises a
validation error synchronously and leaves the state unchanged — no asset
row is created and no processing job is enqueued. -/
theorem completeUpload_rejects_invalid (st : UploadsState) (dto : UploadCompleteDto)
    (userId newAssetId : String)
    (hbad : dto.contentType ∉ allowedFileTypes ∨ dto.fileSize ≤ 0 ∨
      104857600 < dto.fileSize) :
    ∃ e, completeUpload st dto userId newAssetId = (Except.error e, st) := by
  unfold completeUpload validateFileType
  by_cases hct : dto.contentType ∈ allowedFileTypes
  · have hsz : dto.fileSize ≤ 0 ∨ 104857600 < dto.fileSize := by
      rcases hbad with h | h
      · exact absurd hct h
      · exact h
    have hc : allowedFileTypes.contains dto.contentType = true := by
      simpa using hct
    rw [hc]
    simp only [if_pos hsz]
    exact ⟨"Invalid file size", rfl⟩
  · have hc : allowedFileTypes.contains dto.contentType = false := by
      simpa using hct
    rw [hc]
    exact ⟨_, rfl⟩

/-- Witness for C8: completing an upload declared as `application/zip`
with a valid size is rejected and the (empty) state is untouched. -/
theorem completeUpload_rejects_invalid_witness :
    ∃ e, completeUpload ⟨[], ⟨[]⟩⟩
        ⟨"u/1.zip", "a.zip", "application/zip", 2048, none⟩ "user-1" "asset-1" =
      (Except.error e, ⟨[], ⟨[]⟩⟩) :=
  completeUpload_rejects_invalid ⟨[], ⟨[]⟩⟩
    ⟨"u/1.zip", "a.zip", "application/zip", 2048, none⟩ "user-1" "asset-1"
    (Or.inl (by decide))

/-- C9: deleting an existing asset as its owner always deletes the
database row — blob deletion is best-effort: whatever the S3 outcomes,
the call succeeds, the row is gone, every other row survives, and a blob
failure surfaces only as a logged warning. -/
theorem deleteAsset_blob_failure_nonblocking (env : S3DeleteEnv)
    (assets : List AssetRow) (assetId userId : String) (asset : AssetRow)
    (hfind : assets.find? (fun a => a.id == assetId) = some asset)
    (howner : asset.ownerId = userId) :
    ∃ rest warned,
      deleteAsset env assets assetId userId = Except.ok (rest, warned) ∧
      (∀ a ∈ rest, ¬(a.id = assetId)) ∧
      (∀ a ∈ assets, ¬(a.id = assetId) → a ∈ rest) ∧
      (∀ e, env.deleteOriginal = Except.error e → warned = true) := by
  unfold deleteAsset
  rw [hfind]
  simp only [howner, ne_eq, not_true_eq_false, if_false]
  refine ⟨_, _, rfl, ?_, ?_, ?_⟩
  · intro a ha
    have := (List.mem_filter.mp ha).2
    simpa using this
  · intro a ha hne
    exact List.mem_filter.mpr ⟨ha, by simpa using hne⟩
  · intro e he
    rw [he]

/-- Witness for C9: an owner deleting their asset while both S3 deletions
fail still succeeds, the row is removed, and the warning is logged. -/
theorem deleteAsset_blob_failure_nonblocking_witness :
    ∃ rest warned,
      deleteAsset ⟨Except.error ("s3 down"), Except.error ("s3 down")⟩
          [⟨"asset-1", "user-1", "u/1.jpg", "image/jpeg", 2048, AssetStatus.READY,
            some ("u/1_thumb.jpeg")⟩]
          "asset-1" "user-1" = Except.ok (rest, warned) ∧
      (∀ a ∈ rest, ¬(a.id = "asset-1")) ∧
      warned = true := by
  obtain ⟨rest, warned, h1, h2, _, h4⟩ :=
    deleteAsset_blob_failure_nonblocking
      ⟨Except.error ("s3 down"), Except.error ("s3 down")⟩
      [⟨"asset-1", "user-1", "u/1.jpg", "image/jpeg", 2048, AssetStatus.READY,
        some ("u/1_thumb.jpeg")⟩]
      "asset-1" "user-1"
      ⟨"asset-1", "user-1", "u/1.jpg", "image/jpeg", 2048, AssetStatus.READY,
        some ("u/1_thumb.jpeg")⟩
      (by decide) rfl
  exact ⟨rest, warned, h1, h2, h4 "s3 down" rfl⟩

/-- C10: every MIME type beginning with `image/` that is not one of the
seven mapped image MIME types falls back to `jpeg`, and whatever the
mapping returns passes the supported-format check, so an `image/*` asset
never trips the unsupported-format fast-fail of the thumbnail engine. -/
theorem extractImageFormat_always_supported (mimeType : String)
    (himg : ∃ rest, mimeType = "image/" ++ rest) :
    (jsToLower mimeType ∉ ["image/jpeg", "image/jpg", "image/png", "image/gif",
        "image/webp", "image/tiff", "image/bmp"] →
      extractImageFormat mimeType = "jpeg") ∧
    isSupportedImageFormat (extractImageFormat mimeType) = true ∧
    ∀ w h maxW maxH : ℤ,
      (processImageFormatRun (Except.ok (w, h)) (extractImageFormat mimeType)
        maxW maxH).1 ≠ Except.error ("Unsupported image format: " ++
          extractImageFormat mimeType) := by
  refine ⟨?_, ?_, ?_⟩
  · intro hnotin
    simp only [List.mem_cons, List.not_mem_nil, or_false, not_or] at hnotin
    obtain ⟨h1, h2, h3, h4, h5, h6, h7⟩ := hnotin
    unfold extractImageFormat
    simp [h1, h2, h3, h4, h5, h6, h7]
  · unfold extractImageFormat
    dsimp only
    split_ifs <;> decide
  · intro w h maxW maxH
    have hsup : isSupportedImageFormat (extractImageFormat mimeType) = true := by
      unfold extractImageFormat
      dsimp only
      split_ifs <;> decide
    unfold processImageFormatRun
    rw [hsup]
    simp

/-- Witness for C10: the unmapped MIME type `image/x-icon` falls back to
`jpeg`, which the thumbnail engine accepts. -/
theorem extractImageFormat_always_supported_witness :
    extractImageFormat "image/x-icon" = "jpeg" ∧
    isSupportedImageFormat (extractImageFormat "image/x-icon") = true := by
  have h := extractImageFormat_always_supported "image/x-icon" ⟨"x-icon", rfl⟩
  exact ⟨h.1 (by decide), h.2.1⟩

end MediaInbox
